import Mathlib

/-!
Verification of the world-simulation backend's state engine.

The JavaScript sources are embedded shallowly:
numbers are modelled as rationals (`ℚ`), ticks and years as integers,
JS objects as structures, JS object maps as association lists in
insertion order, and in-place mutation as functional update of the
first country whose `id` matches (JS `Array.prototype.find` returns
the first match, and the subsequent mutations hit that object).
-/

namespace WorldSim

/-- JS `Math.min` on two (non-NaN) numbers. -/
def rmin (a b : ℚ) : ℚ := if a ≤ b then a else b

/-- JS `Math.max` on two (non-NaN) numbers. -/
def rmax (a b : ℚ) : ℚ := if a ≤ b then b else a

/-- Embeds `clampValue` from `src/db/models.js`:
`Math.max(min, Math.min(max, value))`. -/
def clampValue (value lo hi : ℚ) : ℚ := rmax lo (rmin hi value)

/-- A country record, from the `WorldStateSchema` in `src/db/models.js`
(the fields the engine reads and writes). -/
structure Country where
  id : String
  name : String
  power : ℚ
  stability : ℚ
  technology : ℚ
  resources : ℚ
  population : ℚ
  collapsing : Bool
  alliances : List String
  tensions : List (String × ℚ)
  history : List String
  deriving Repr, DecidableEq, Inhabited

/-- A global event, from the `globalEvents` entries of the schema
(the fields `shouldTerminate` and `addEvent` touch). -/
structure GEvent where
  type : String
  stabilityIndex : Option ℚ
  tick : Int
  year : Int
  deriving Repr, DecidableEq

/-- The world state (the fields the engine's pure logic touches). -/
structure WState where
  tick : Int
  year : Int
  countries : List Country
  globalEvents : List GEvent
  deriving Repr, DecidableEq

/-- Per-country deltas handed to `applyChanges`; a `none` field models a
JS `undefined` delta (the corresponding stat is left untouched). -/
structure Deltas where
  power : Option ℚ
  stability : Option ℚ
  technology : Option ℚ
  resources : Option ℚ
  population : Option ℚ
  deriving Repr, DecidableEq

/-- The empty delta record (all stats untouched). -/
def Deltas.none : Deltas := ⟨Option.none, Option.none, Option.none, Option.none, Option.none⟩

/-- The body of the `applyChanges` loop for one addressed country, from
`src/src/engine/worldState.js`: each present delta is added and clamped
to `[0, 100]` (population is only floored at 0), then the critical-state
flag is updated, then the absolute-collapse ceiling caps power at 20
whenever the resulting stability is below 5. -/
def applyCountryDeltas (c : Country) (d : Deltas) : Country :=
  let c1 := match d.power with
    | some v => { c with power := clampValue (c.power + v) 0 100 }
    | none => c
  let c2 := match d.stability with
    | some v => { c1 with stability := clampValue (c1.stability + v) 0 100 }
    | none => c1
  let c3 := match d.technology with
    | some v => { c2 with technology := clampValue (c2.technology + v) 0 100 }
    | none => c2
  let c4 := match d.resources with
    | some v => { c3 with resources := clampValue (c3.resources + v) 0 100 }
    | none => c3
  let c5 := match d.population with
    | some v => { c4 with population := rmax 0 (c4.population + v) }
    | none => c4
  let c6 := if c5.stability < 20 ∧ c5.power < 30
    then { c5 with collapsing := true }
    else { c5 with collapsing := false }
  if c6.stability < 5 then { c6 with power := rmin c6.power 20 } else c6

/-- Functional rendering of mutating the object returned by
`countries.find(c => c.id === cid)`: the first country with a matching
id is replaced, the rest of the array is untouched. -/
def updateFirstCountry (cid : String) (f : Country → Country) : List Country → List Country
  | [] => []
  | c :: rest => if c.id = cid then f c :: rest else c :: updateFirstCountry cid f rest

/-- Embeds `WorldState.applyChanges`: iterate over the change entries in
order; an entry whose country id is absent is skipped with a warning
(a no-op here), otherwise the deltas are applied to that country.
The JSON deep clone is the identity in this pure model. -/
def applyChanges (ws : WState) (changes : List (String × Deltas)) : WState :=
  let cs := changes.foldl
    (fun cs cd => updateFirstCountry cd.1 (fun c => applyCountryDeltas c cd.2) cs)
    ws.countries
  { ws with countries := cs }

/-- Lookup in a JS object map modelled as an association list, with the
`|| 0` default of the source (`country.tensions[targetId] || 0`; a
stored 0 is falsy in JS and also yields 0 here). -/
def getAssoc (k : String) : List (String × ℚ) → ℚ
  | [] => 0
  | p :: rest => if p.1 = k then p.2 else getAssoc k rest

/-- JS object property assignment on an association list: update the
existing key in place, or append a new key at the end. -/
def setAssoc (k : String) (v : ℚ) : List (String × ℚ) → List (String × ℚ)
  | [] => [(k, v)]
  | p :: rest => if p.1 = k then (k, v) :: rest else p :: setAssoc k v rest

/-- Does the state contain a country with this id
(`worldState.countries.find(c => c.id === cid)` succeeds)? -/
def hasCountry (ws : WState) (cid : String) : Bool :=
  (ws.countries.find? (fun c => c.id == cid)).isSome

/-- The tension the first country with id `cid` holds towards `tid`,
0 when the country or the entry is absent. -/
def getTension (ws : WState) (cid tid : String) : ℚ :=
  match ws.countries.find? (fun c => c.id == cid) with
  | some c => getAssoc tid c.tensions
  | none => 0

/-- The per-country update performed by a tension assignment. -/
def setTensionFn (tid : String) (v : ℚ) (c : Country) : Country :=
  { c with tensions := setAssoc tid v c.tensions }

/-- Set `tensions[tid]` of the first country with id `cid`. -/
def setTension (ws : WState) (cid tid : String) (v : ℚ) : WState :=
  { ws with countries := updateFirstCountry cid (setTensionFn tid v) ws.countries }

/-- The inner-loop body of `WorldState.applyTensionChanges` for one
`(targetId, delta)` entry of an actor whose country is present: add the
delta to the actor-to-target tension and clamp to `[-100, 100]`, then, if
the target country exists in the (already updated) state, add the 70%
reciprocal delta to the target-to-actor tension and clamp likewise. -/
def applyTensionDelta (ws : WState) (cid tid : String) (delta : ℚ) : WState :=
  let cur := getTension ws cid tid
  let ws1 := setTension ws cid tid (clampValue (cur + delta) (-100) 100)
  if hasCountry ws1 tid then
    let recip := getTension ws1 tid cid
    setTension ws1 tid cid (clampValue (recip + (7/10) * delta) (-100) 100)
  else ws1

/-- Embeds `WorldState.applyTensionChanges`: outer iteration over the
per-actor entries (an absent actor id skips its whole inner loop), inner
iteration over that actor's `(targetId, delta)` entries in order. -/
def applyTensionChanges (ws : WState)
    (tensionChanges : List (String × List (String × ℚ))) : WState :=
  tensionChanges.foldl
    (fun s entry =>
      if hasCountry s entry.1 then
        entry.2.foldl (fun s2 td => applyTensionDelta s2 entry.1 td.1 td.2) s
      else s)
    ws

/-- Embeds `WorldState.addEvent`: stamp the event with the current tick
and year, append it to `globalEvents`, and when the length exceeds 100
keep only the last 100 entries (`slice(-100)`). -/
def addEvent (ws : WState) (e : GEvent) : WState :=
  let e2 := { e with tick := ws.tick, year := ws.year }
  let evs := ws.globalEvents ++ [e2]
  let evs2 := if 100 < evs.length then evs.drop (evs.length - 100) else evs
  { ws with globalEvents := evs2 }

/-- Embeds `WorldState.addCountryHistory`: append the entry to the
history of the first country with a matching id (no-op when absent) and
when the length exceeds 10 keep only the last 10 entries (`slice(-10)`). -/
def pushHistoryFn (entry : String) (c : Country) : Country :=
  let h := c.history ++ [entry]
  { c with history := if 10 < h.length then h.drop (h.length - 10) else h }

def addCountryHistory (ws : WState) (cid : String) (entry : String) : WState :=
  { ws with countries := updateFirstCountry cid (pushHistoryFn entry) ws.countries }

/-- The `FORM` branch body of `updateAlliances` on one country: push the
ally id unless it is already present. -/
def addAlly (c : Country) (aid : String) : Country :=
  if aid ∈ c.alliances then c else { c with alliances := c.alliances ++ [aid] }

/-- The `BREAK` branch body of `updateAlliances` on one country: filter
the ally id out. -/
def removeAlly (c : Country) (aid : String) : Country :=
  { c with alliances := c.alliances.filter (fun x => !(x == aid)) }

/-- Embeds `WorldState.updateAlliances`: a no-op unless both countries
are present; `FORM` adds each id to the other's alliance list (without
duplicates), `BREAK` removes each id from the other's list; any other
action string changes nothing. -/
def updateAlliances (ws : WState) (c1Id c2Id : String) (action : String) : WState :=
  if hasCountry ws c1Id ∧ hasCountry ws c2Id then
    if action = "FORM" then
      let cs1 := updateFirstCountry c1Id (fun c => addAlly c c2Id) ws.countries
      let cs2 := updateFirstCountry c2Id (fun c => addAlly c c1Id) cs1
      { ws with countries := cs2 }
    else if action = "BREAK" then
      let cs1 := updateFirstCountry c1Id (fun c => removeAlly c c2Id) ws.countries
      let cs2 := updateFirstCountry c2Id (fun c => removeAlly c c1Id) cs1
      { ws with countries := cs2 }
    else ws
  else ws

/-- The result object of `shouldTerminate`; `reason` and `message` are
absent (`none`) in the non-terminating case. -/
structure TermResult where
  terminate : Bool
  reason : Option String
  message : Option String
  deriving Repr, DecidableEq

/-- The stability index recorded on an event, with the `|| 0` default of
`e.stabilityIndex || 0`. -/
def stabVal (e : GEvent) : ℚ := e.stabilityIndex.getD 0

/-- Embeds `shouldTerminate` from `src/unnamed/part_001` (metrics
module): the four conditions are tried in order TIME_LIMIT, HEGEMONY,
TOTAL_COLLAPSE, PERFECT_ORDER and the first true one wins. The
PERFECT_ORDER check takes the last 20 entries of `globalEvents`
(`slice(-20)`), keeps only those of type `TICK_SUMMARY`, and fires when
at least 20 remain (hence all 20) and each reports stability index at
least 95. Human-readable messages are abbreviated; no claim reads them. -/
def shouldTerminate (ws : WState) (maxYears : Int) : TermResult :=
  if ws.year ≥ maxYears then
    ⟨true, some "TIME_LIMIT", some "Reached year limit"⟩
  else
    let powerful := ws.countries.filter (fun c => decide (50 < c.power ∧ 30 < c.stability))
    if powerful.length = 1 ∧ 1 < ws.countries.length then
      ⟨true, some "HEGEMONY", some "global hegemony achieved"⟩
    else
      let surviving := ws.countries.filter (fun c => decide (20 < c.stability))
      if surviving.length = 0 then
        ⟨true, some "TOTAL_COLLAPSE", some "All nations have collapsed into chaos"⟩
      else
        let recentStability :=
          ((ws.globalEvents.drop (ws.globalEvents.length - 20)).filter
            (fun e => e.type == "TICK_SUMMARY")).map stabVal
        if 20 ≤ recentStability.length ∧ recentStability.all (fun s => decide (95 ≤ s)) then
          ⟨true, some "PERFECT_ORDER", some "Perfect stability achieved and maintained"⟩
        else ⟨false, none, none⟩

/-- A decision record as pushed by `AgentManager.collectDecisions` (the
fields the engine's pure logic reads). -/
structure Decision where
  agentId : String
  actorId : String
  action : String
  specificAction : String
  target : Option String
  deriving Repr, DecidableEq

/-- The category rank of `EventResolver.prioritizeActions`:
`priority[action] || 99`. -/
def priorityOf (action : String) : ℕ :=
  if action = "MILITARY" then 1
  else if action = "DIPLOMACY" then 2
  else if action = "ESPIONAGE" then 3
  else if action = "INTERNAL" then 4
  else 99

/-- The rank order induced by the comparator of `prioritizeActions`. -/
def decisionOrder (a b : Decision) : Prop :=
  priorityOf a.action ≤ priorityOf b.action

instance : DecidableRel decisionOrder := fun a b => by
  unfold decisionOrder
  infer_instance

instance : IsTotal Decision decisionOrder :=
  ⟨fun a b => Nat.le_total (priorityOf a.action) (priorityOf b.action)⟩

instance : IsTrans Decision decisionOrder :=
  ⟨fun _ _ _ hab hbc => Nat.le_trans hab hbc⟩

/-- Embeds `EventResolver.prioritizeActions`:
`decisions.sort((a, b) => (priority[a.action]||99) - (priority[b.action]||99))`.
ES2019 `Array.prototype.sort` is a stable sort consistent with the
comparator, rendered here as insertion sort on the rank order. -/
def prioritizeActions (ds : List Decision) : List Decision :=
  ds.insertionSort decisionOrder

/-- The slice of an action-resolution result that
`handleSpecialActions` reads. -/
structure Resolution where
  success : Bool
  deriving Repr, DecidableEq

/-- Embeds the alliance part of `EventResolver.handleSpecialActions`:
`form_alliance` updates alliances only when the resolution succeeded,
`break_alliance` updates them regardless of success. A `none` target
models JS `null`, on which `updateAlliances` finds no second country and
changes nothing. The `declare_war` branch only logs and is omitted. -/
def handleSpecialActions (ws : WState) (d : Decision) (res : Resolution) : WState :=
  if d.specificAction = "form_alliance" ∧ res.success = true then
    match d.target with
    | some t => updateAlliances ws d.actorId t "FORM"
    | none => ws
  else if d.specificAction = "break_alliance" then
    match d.target with
    | some t => updateAlliances ws d.actorId t "BREAK"
    | none => ws
  else ws

/-- The value produced by one `GeminiClient.call` attempt: either a
parsed payload, or an object carrying a truthy `error` field together
with `shouldRetry`. The payload fields are the ones `collectDecisions`
spreads into the pushed decision. -/
structure CallResult where
  error : Option String
  shouldRetry : Bool
  action : String
  specificAction : String
  target : Option String
  deriving Repr, DecidableEq

/-- JS truthiness of `result.error`: present and a non-empty string. -/
def truthyErr (r : CallResult) : Bool :=
  match r.error with
  | some s => !(s == "")
  | none => false

/-- The retry loop of `GeminiClient.callWithRetry`, with the sequence of
attempt outcomes supplied as an oracle `call : ℕ → CallResult` (the call
is an external network effect). `Except.error` models a thrown
exception: a non-retryable error rethrows its message, and exhausting
the retries throws the max-retries message. -/
def callWithRetryGo (call : ℕ → CallResult) : ℕ → ℕ → Except String CallResult
  | _, 0 => .error "Max retries reached for Gemini API call"
  | i, fuel + 1 =>
    let result := call i
    if truthyErr result = false then .ok result
    else if result.shouldRetry = false then .error (result.error.getD "")
    else callWithRetryGo call (i + 1) fuel

/-- `callWithRetry(prompt)` with the default `maxRetries = 3`. -/
def callWithRetry (call : ℕ → CallResult) : Except String CallResult :=
  callWithRetryGo call 0 3

/-- An agent entry as `AgentManager.collectDecisions` reads it from the
initialised clients map. -/
structure AgentCfg where
  id : String
  role : String
  countryId : String
  deriving Repr, DecidableEq

/-- The safe default decision built in the `decision.error` branch of
`collectDecisions`: action `INTERNAL`, specific action `stabilize`, and
no target. -/
def fallbackDecision (agentId countryId : String) : Decision :=
  ⟨agentId, countryId, "INTERNAL", "stabilize", none⟩

/-- Embeds `AgentManager.collectDecisions`, with each agent's external
call attempts supplied by the oracle `call` (indexed by agent id and
attempt number). Per agent: skip non-leaders, skip leaders whose country
is missing, skip collapsed countries (stability < 10 and power < 10);
then run `callWithRetry`. A returned value with a truthy `error` field
pushes the fallback decision; a clean value pushes the real decision; a
thrown exception is caught, logged, and pushes nothing. -/
def collectDecisions (agents : List AgentCfg) (ws : WState)
    (call : String → ℕ → CallResult) : List Decision :=
  agents.foldl
    (fun acc a =>
      if a.role = "LEADER" then
        match ws.countries.find? (fun c => c.id == a.countryId) with
        | some country =>
          if country.stability < 10 ∧ country.power < 10 then acc
          else
            match callWithRetry (call a.id) with
            | .ok r =>
              if truthyErr r then acc ++ [fallbackDecision a.id a.countryId]
              else acc ++ [⟨a.id, a.countryId, r.action, r.specificAction, r.target⟩]
            | .error _ => acc
        | none => acc
      else acc)
    []

/-- Modelled from the spec's words for claim C1, to be compared with the
code's `shouldTerminate`: the tick-summary entries of the whole event
log number at least 20 and the most recent 20 of them all report a
stability index of at least 95. -/
def specPerfectOrderCond (ws : WState) : Prop :=
  let ts := ws.globalEvents.filter (fun e => e.type == "TICK_SUMMARY")
  20 ≤ ts.length ∧ ∀ e ∈ ts.drop (ts.length - 20), 95 ≤ stabVal e

instance (ws : WState) : Decidable (specPerfectOrderCond ws) := by
  unfold specPerfectOrderCond
  exact instDecidableAnd

/-! Closed-form descriptions of the stats produced by
`applyCountryDeltas`, used to state and prove its properties. -/

/-- Stability after the additive clamp (or unchanged). -/
def postStability (c : Country) (d : Deltas) : ℚ :=
  match d.stability with
  | some v => clampValue (c.stability + v) 0 100
  | none => c.stability

/-- Power after the additive clamp (or unchanged), before the
hard-collapse ceiling. -/
def postPowerPre (c : Country) (d : Deltas) : ℚ :=
  match d.power with
  | some v => clampValue (c.power + v) 0 100
  | none => c.power

/-- Technology after the additive clamp (or unchanged). -/
def postTechnology (c : Country) (d : Deltas) : ℚ :=
  match d.technology with
  | some v => clampValue (c.technology + v) 0 100
  | none => c.technology

/-- Resources after the additive clamp (or unchanged). -/
def postResources (c : Country) (d : Deltas) : ℚ :=
  match d.resources with
  | some v => clampValue (c.resources + v) 0 100
  | none => c.resources

/-- Population after the additive floor (or unchanged). -/
def postPopulation (c : Country) (d : Deltas) : ℚ :=
  match d.population with
  | some v => rmax 0 (c.population + v)
  | none => c.population

/-- The collapsing flag after the critical-state check. -/
def postCollapsing (c : Country) (d : Deltas) : Bool :=
  decide (postStability c d < 20 ∧ postPowerPre c d < 30)

/-- Power after the hard-collapse ceiling. -/
def postPower (c : Country) (d : Deltas) : ℚ :=
  if postStability c d < 5 then rmin (postPowerPre c d) 20 else postPowerPre c d

/-- The stat ranges promised by the schema in `src/db/models.js`:
power, stability, technology and resources in `[0, 100]`,
population non-negative. -/
def StatsInRange (c : Country) : Prop :=
  (0 ≤ c.power ∧ c.power ≤ 100) ∧
  (0 ≤ c.stability ∧ c.stability ≤ 100) ∧
  (0 ≤ c.technology ∧ c.technology ≤ 100) ∧
  (0 ≤ c.resources ∧ c.resources ≤ 100) ∧
  0 ≤ c.population

instance : DecidablePred StatsInRange := fun c => by
  unfold StatsInRange
  infer_instance

/-! Named forms of the four conditions tested by `shouldTerminate`. -/

/-- TIME_LIMIT condition: the simulated year reached the limit. -/
def timeLimitCond (ws : WState) (maxYears : Int) : Prop := ws.year ≥ maxYears

/-- HEGEMONY condition: exactly one powerful nation among several. -/
def hegemonyCond (ws : WState) : Prop :=
  (ws.countries.filter (fun c => decide (50 < c.power ∧ 30 < c.stability))).length = 1 ∧
  1 < ws.countries.length

/-- TOTAL_COLLAPSE condition: no nation keeps stability above 20. -/
def totalCollapseCond (ws : WState) : Prop :=
  ∀ c ∈ ws.countries, c.stability ≤ 20

/-- The PERFECT_ORDER condition the code actually tests: among the most
recent 20 entries of `globalEvents`, the tick-summary ones number at
least 20 (hence all 20 are tick summaries) and each reports a stability
index of at least 95. -/
def codePerfectOrderCond (ws : WState) : Prop :=
  let recent := (ws.globalEvents.drop (ws.globalEvents.length - 20)).filter
    (fun e => e.type == "TICK_SUMMARY")
  20 ≤ recent.length ∧ ∀ e ∈ recent, 95 ≤ stabVal e

/-- Membership of a decision in the rank class `k`. -/
def classK (k : ℕ) (d : Decision) : Bool := priorityOf d.action == k

/-! Concrete fixtures used by counterexamples and witnesses. -/

/-- A country with the given id, power and stability, mid-range
remaining stats and empty relations. -/
def mkCountry (cid : String) (power stability : ℚ) : Country :=
  ⟨cid, cid, power, stability, 50, 50, 1000, false, [], [], []⟩

/-- A tick-summary log entry reporting stability index 95. -/
def tsEvent95 : GEvent := ⟨"TICK_SUMMARY", some 95, 0, 0⟩

/-- A war event (no stability index). -/
def warEvent : GEvent := ⟨"WAR", none, 0, 0⟩

/-- Counterexample state for the PERFECT_ORDER claim: 20 tick summaries
at index 95 followed by one war event, one healthy nation, year 0. -/
def wsPO : WState :=
  ⟨0, 0, [mkCountry "alpha" 40 50],
    [tsEvent95, tsEvent95, tsEvent95, tsEvent95, tsEvent95,
     tsEvent95, tsEvent95, tsEvent95, tsEvent95, tsEvent95,
     tsEvent95, tsEvent95, tsEvent95, tsEvent95, tsEvent95,
     tsEvent95, tsEvent95, tsEvent95, tsEvent95, tsEvent95,
     warEvent]⟩

/-- A state where every nation has collapsed (stability at most 20). -/
def wsCollapsed : WState := ⟨0, 1000, [mkCountry "alpha" 10 5], []⟩

/-- A healthy single-nation state for decision collection. -/
def wsHealthy : WState := ⟨0, 0, [mkCountry "alpha" 50 50], []⟩

/-- A leader agent steering country `alpha`. -/
def leaderAlpha : AgentCfg := ⟨"agent1", "LEADER", "alpha"⟩

/-- A call oracle whose every attempt fails with a non-retryable
error (e.g. a 503 from the API). -/
def callAlwaysFails : String → ℕ → CallResult :=
  fun _ _ => ⟨some "503 Service Unavailable", false, "", "", none⟩

/-- An INTERNAL decision, submitted first. -/
def dInternal : Decision := ⟨"a1", "alpha", "INTERNAL", "stabilize", none⟩

/-- A MILITARY decision, submitted second. -/
def dMilitary : Decision := ⟨"a2", "beta", "MILITARY", "declare_war", some "alpha"⟩

/-- A DIPLOMACY decision, submitted third. -/
def dDiplomacy : Decision := ⟨"a3", "gamma", "DIPLOMACY", "form_alliance", some "beta"⟩

/-- A state whose last 20 global events are all tick summaries at
stability index 95: the PERFECT_ORDER branch fires here. -/
def wsPO20 : WState :=
  ⟨0, 0, [mkCountry "alpha" 40 50],
    [tsEvent95, tsEvent95, tsEvent95, tsEvent95, tsEvent95,
     tsEvent95, tsEvent95, tsEvent95, tsEvent95, tsEvent95,
     tsEvent95, tsEvent95, tsEvent95, tsEvent95, tsEvent95,
     tsEvent95, tsEvent95, tsEvent95, tsEvent95, tsEvent95]⟩

/-- A two-nation state with an existing symmetric alliance. -/
def wsAllied : WState :=
  ⟨0, 0,
    [{ mkCountry "alpha" 40 50 with alliances := ["beta"] },
     { mkCountry "beta" 40 50 with alliances := ["alpha"] }],
    []⟩

/-! General lemmas about the embedded operations. -/

theorem rmin_eq (a b : ℚ) : rmin a b = min a b := (min_def a b).symm

theorem rmax_eq (a b : ℚ) : rmax a b = max a b := (max_def a b).symm

theorem clampValue_eq (v lo hi : ℚ) : clampValue v lo hi = max lo (min hi v) := by
  rw [clampValue, rmax_eq, rmin_eq]

theorem le_clampValue (v lo hi : ℚ) : lo ≤ clampValue v lo hi := by
  rw [clampValue_eq]
  exact le_max_left _ _

theorem clampValue_le {lo hi : ℚ} (v : ℚ) (h : lo ≤ hi) : clampValue v lo hi ≤ hi := by
  rw [clampValue_eq]
  exact max_le h (min_le_left _ _)

theorem clampValue_of_mem {v lo hi : ℚ} (h1 : lo ≤ v) (h2 : v ≤ hi) :
    clampValue v lo hi = v := by
  rw [clampValue_eq, min_eq_right h2, max_eq_right h1]

/-- Closed form of one `applyChanges` loop body: every output stat is
the corresponding post-delta formula, the identity fields are kept. -/
theorem applyCountryDeltas_eq (c : Country) (d : Deltas) :
    applyCountryDeltas c d =
      { c with power := postPower c d, stability := postStability c d,
               technology := postTechnology c d, resources := postResources c d,
               population := postPopulation c d, collapsing := postCollapsing c d } := by
  obtain ⟨p, s, t, r, po⟩ := d
  cases p <;> cases s <;> cases t <;> cases r <;> cases po <;>
    simp only [applyCountryDeltas, postPower, postPowerPre, postStability, postTechnology,
      postResources, postPopulation, postCollapsing] <;>
    split_ifs <;> simp_all

theorem postStability_mem {c : Country} (d : Deltas) (h0 : 0 ≤ c.stability)
    (h1 : c.stability ≤ 100) : 0 ≤ postStability c d ∧ postStability c d ≤ 100 := by
  unfold postStability
  cases d.stability with
  | none => exact ⟨h0, h1⟩
  | some v => exact ⟨le_clampValue _ _ _, clampValue_le _ (by norm_num)⟩

theorem postPowerPre_mem {c : Country} (d : Deltas) (h0 : 0 ≤ c.power)
    (h1 : c.power ≤ 100) : 0 ≤ postPowerPre c d ∧ postPowerPre c d ≤ 100 := by
  unfold postPowerPre
  cases d.power with
  | none => exact ⟨h0, h1⟩
  | some v => exact ⟨le_clampValue _ _ _, clampValue_le _ (by norm_num)⟩

theorem postTechnology_mem {c : Country} (d : Deltas) (h0 : 0 ≤ c.technology)
    (h1 : c.technology ≤ 100) : 0 ≤ postTechnology c d ∧ postTechnology c d ≤ 100 := by
  unfold postTechnology
  cases d.technology with
  | none => exact ⟨h0, h1⟩
  | some v => exact ⟨le_clampValue _ _ _, clampValue_le _ (by norm_num)⟩

theorem postResources_mem {c : Country} (d : Deltas) (h0 : 0 ≤ c.resources)
    (h1 : c.resources ≤ 100) : 0 ≤ postResources c d ∧ postResources c d ≤ 100 := by
  unfold postResources
  cases d.resources with
  | none => exact ⟨h0, h1⟩
  | some v => exact ⟨le_clampValue _ _ _, clampValue_le _ (by norm_num)⟩

theorem postPopulation_nonneg {c : Country} (d : Deltas) (h0 : 0 ≤ c.population) :
    0 ≤ postPopulation c d := by
  unfold postPopulation
  cases d.population with
  | none => exact h0
  | some v => exact (le_max_left 0 (c.population + v)).trans_eq (rmax_eq 0 _).symm

theorem postPower_mem {c : Country} (d : Deltas) (h0 : 0 ≤ c.power)
    (h1 : c.power ≤ 100) : 0 ≤ postPower c d ∧ postPower c d ≤ 100 := by
  obtain ⟨hp0, hp1⟩ := postPowerPre_mem d h0 h1
  unfold postPower
  split_ifs
  · rw [rmin_eq]
    exact ⟨le_min hp0 (by norm_num), le_trans (min_le_left _ _) hp1⟩
  · exact ⟨hp0, hp1⟩

/-- One delta application keeps every stat in range. -/
theorem statsInRange_applyCountryDeltas {c : Country} (d : Deltas)
    (h : StatsInRange c) : StatsInRange (applyCountryDeltas c d) := by
  obtain ⟨⟨hp0, hp1⟩, ⟨hs0, hs1⟩, ⟨ht0, ht1⟩, ⟨hr0, hr1⟩, hpop⟩ := h
  rw [applyCountryDeltas_eq]
  exact ⟨postPower_mem d hp0 hp1, postStability_mem d hs0 hs1,
    postTechnology_mem d ht0 ht1, postResources_mem d hr0 hr1,
    postPopulation_nonneg d hpop⟩

/-- A pointwise property closed under `f` is preserved by updating the
first matching country. -/
theorem updateFirstCountry_forall {P : Country → Prop} {cid : String}
    {f : Country → Country} (hf : ∀ c, P c → P (f c)) :
    ∀ cs : List Country, (∀ c ∈ cs, P c) → ∀ c ∈ updateFirstCountry cid f cs, P c
  | [], _ => by simp [updateFirstCountry]
  | c :: rest, h => by
    simp only [updateFirstCountry]
    split_ifs with hid
    · intro x hx
      rcases List.mem_cons.mp hx with rfl | hx
      · exact hf c (h c (List.mem_cons_self _ _))
      · exact h x (List.mem_cons_of_mem _ hx)
    · intro x hx
      rcases List.mem_cons.mp hx with rfl | hx
      · exact h x (List.mem_cons_self _ _)
      · exact updateFirstCountry_forall hf rest
          (fun y hy => h y (List.mem_cons_of_mem _ hy)) x hx

theorem applyChanges_foldl_inRange :
    ∀ (changes : List (String × Deltas)) (cs : List Country),
      (∀ c ∈ cs, StatsInRange c) →
      ∀ c ∈ changes.foldl
        (fun cs cd => updateFirstCountry cd.1 (fun c => applyCountryDeltas c cd.2) cs) cs,
        StatsInRange c
  | [], cs, h => by simpa using h
  | cd :: rest, cs, h => by
    simp only [List.foldl_cons]
    exact applyChanges_foldl_inRange rest _
      (updateFirstCountry_forall (fun c hc => statsInRange_applyCountryDeltas cd.2 hc) cs h)

/-- C4: `applyChanges` keeps power, stability, technology and resources
in `[0, 100]` and population non-negative, for every delta mapping and,
by induction, for every sequence of delta mappings. -/
theorem applyChanges_preserves_stat_ranges :
    (∀ (ws : WState) (changes : List (String × Deltas)),
      (∀ c ∈ ws.countries, StatsInRange c) →
      ∀ c ∈ (applyChanges ws changes).countries, StatsInRange c)
    ∧ (∀ (ws : WState) (seq : List (List (String × Deltas))),
      (∀ c ∈ ws.countries, StatsInRange c) →
      ∀ c ∈ (seq.foldl applyChanges ws).countries, StatsInRange c) := by
  have h1 : ∀ (ws : WState) (changes : List (String × Deltas)),
      (∀ c ∈ ws.countries, StatsInRange c) →
      ∀ c ∈ (applyChanges ws changes).countries, StatsInRange c := by
    intro ws changes h
    exact applyChanges_foldl_inRange changes ws.countries h
  refine ⟨h1, ?_⟩
  intro ws seq
  induction seq generalizing ws with
  | nil => intro h; simpa using h
  | cons ch rest ih =>
    intro h
    simpa using ih (applyChanges ws ch) (h1 ws ch h)

/-- Witness for C4 at a concrete state and delta mapping. -/
theorem applyChanges_preserves_stat_ranges_witness :
    StatsInRange (applyCountryDeltas (mkCountry "alpha" 50 50)
      ⟨some 50, Option.none, Option.none, Option.none, Option.none⟩) :=
  applyChanges_preserves_stat_ranges.1 wsHealthy
    [("alpha", ⟨some 50, Option.none, Option.none, Option.none, Option.none⟩)]
    (by norm_num [wsHealthy, mkCountry, StatsInRange]) _
    (by simp [applyChanges, wsHealthy, updateFirstCountry, mkCountry])

/-- C3: the hard-collapse ceiling: an addressed country whose post-delta
stability is below 5 ends with power at most 20; the ceiling acts after
the additive clamp and can only lower power; and the concrete scenario
stability 3, power 10, delta +50 ends at power exactly 20. -/
theorem applyChanges_hard_collapse_ceiling :
    (∀ (c : Country) (d : Deltas),
      ((applyCountryDeltas c d).stability < 5 → (applyCountryDeltas c d).power ≤ 20)
      ∧ (applyCountryDeltas c d).power ≤ postPowerPre c d)
    ∧ (applyCountryDeltas (mkCountry "alpha" 10 3)
        ⟨some 50, Option.none, Option.none, Option.none, Option.none⟩).power = 20 := by
  constructor
  · intro c d
    rw [applyCountryDeltas_eq]
    simp only
    constructor
    · intro h
      unfold postPower
      rw [if_pos h, rmin_eq]
      exact min_le_right _ _
    · unfold postPower
      split_ifs
      · rw [rmin_eq]; exact min_le_left _ _
      · exact le_rfl
  · norm_num [applyCountryDeltas, mkCountry, clampValue, rmin, rmax]

/-- Witness for C3's conditional part at a concrete collapsed country. -/
theorem applyChanges_hard_collapse_ceiling_witness :
    (applyCountryDeltas (mkCountry "beta" 10 3) Deltas.none).stability < 5 ∧
    (applyCountryDeltas (mkCountry "beta" 10 3) Deltas.none).power ≤ 20 :=
  ⟨by norm_num [applyCountryDeltas, mkCountry, Deltas.none],
    (applyChanges_hard_collapse_ceiling.1 (mkCountry "beta" 10 3) Deltas.none).1
      (by norm_num [applyCountryDeltas, mkCountry, Deltas.none])⟩

/-! Lemmas about country lookup and update. -/

theorem find?_updateFirstCountry_self {f : Country → Country}
    (hf : ∀ c, (f c).id = c.id) (cid : String) :
    ∀ cs : List Country,
      (updateFirstCountry cid f cs).find? (fun c => c.id == cid) =
        (cs.find? (fun c => c.id == cid)).map f
  | [] => rfl
  | c :: rest => by
    by_cases hid : c.id = cid
    · have h1 : ((f c).id == cid) = true := by simp [hf c, hid]
      have h2 : (c.id == cid) = true := by simp [hid]
      simp only [updateFirstCountry]
      rw [if_pos hid,
        @List.find?_cons_of_pos _ (fun c => c.id == cid) (f c) rest h1,
        @List.find?_cons_of_pos _ (fun c => c.id == cid) c rest h2,
        Option.map_some']
    · have h2 : ¬ (c.id == cid) = true := by simp [hid]
      simp only [updateFirstCountry]
      rw [if_neg hid,
        @List.find?_cons_of_neg _ (fun c => c.id == cid) c (updateFirstCountry cid f rest) h2,
        @List.find?_cons_of_neg _ (fun c => c.id == cid) c rest h2,
        find?_updateFirstCountry_self hf cid rest]

theorem find?_updateFirstCountry_ne {f : Country → Country}
    (hf : ∀ c, (f c).id = c.id) {cid cid' : String} (hne : cid' ≠ cid) :
    ∀ cs : List Country,
      (updateFirstCountry cid f cs).find? (fun c => c.id == cid') =
        cs.find? (fun c => c.id == cid')
  | [] => rfl
  | c :: rest => by
    by_cases hid : c.id = cid
    · have hcne : ¬ (c.id == cid') = true := by
        simp only [beq_iff_eq, hid]
        exact fun h => hne h.symm
      have hfne : ¬ ((f c).id == cid') = true := by
        rw [hf c]
        exact hcne
      simp only [updateFirstCountry]
      rw [if_pos hid,
        @List.find?_cons_of_neg _ (fun c => c.id == cid') (f c) rest hfne,
        @List.find?_cons_of_neg _ (fun c => c.id == cid') c rest hcne]
    · by_cases hc : c.id = cid'
      · have h2 : (c.id == cid') = true := by simp [hc]
        simp only [updateFirstCountry]
        rw [if_neg hid,
          @List.find?_cons_of_pos _ (fun c => c.id == cid') c
            (updateFirstCountry cid f rest) h2,
          @List.find?_cons_of_pos _ (fun c => c.id == cid') c rest h2]
      · have h2 : ¬ (c.id == cid') = true := by simp [hc]
        simp only [updateFirstCountry]
        rw [if_neg hid,
          @List.find?_cons_of_neg _ (fun c => c.id == cid') c
            (updateFirstCountry cid f rest) h2,
          @List.find?_cons_of_neg _ (fun c => c.id == cid') c rest h2,
          find?_updateFirstCountry_ne hf hne rest]

theorem getAssoc_setAssoc_self (k : String) (v : ℚ) :
    ∀ ts, getAssoc k (setAssoc k v ts) = v
  | [] => by simp [getAssoc, setAssoc]
  | p :: rest => by
    by_cases h : p.1 = k
    · simp [setAssoc, h, getAssoc]
    · simp [setAssoc, h, getAssoc, getAssoc_setAssoc_self k v rest]

theorem hasCountry_setTension (ws : WState) (cid tid : String) (v : ℚ) (x : String) :
    hasCountry (setTension ws cid tid v) x = hasCountry ws x := by
  show (List.find? (fun c => c.id == x)
      (updateFirstCountry cid (setTensionFn tid v) ws.countries)).isSome
    = (List.find? (fun c => c.id == x) ws.countries).isSome
  by_cases hx : x = cid
  · subst hx
    rw [@find?_updateFirstCountry_self (setTensionFn tid v) (fun c => rfl) x ws.countries]
    cases List.find? (fun c => c.id == x) ws.countries <;> rfl
  · rw [@find?_updateFirstCountry_ne (setTensionFn tid v) (fun c => rfl) cid x hx
      ws.countries]

theorem getTension_setTension_self {ws : WState} {cid : String} (tid : String) (v : ℚ)
    (h : hasCountry ws cid = true) :
    getTension (setTension ws cid tid v) cid tid = v := by
  unfold hasCountry at h
  obtain ⟨c, hc⟩ := Option.isSome_iff_exists.mp h
  show (match List.find? (fun c => c.id == cid)
      (updateFirstCountry cid (setTensionFn tid v) ws.countries) with
    | some c => getAssoc tid c.tensions
    | none => 0) = v
  rw [@find?_updateFirstCountry_self (setTensionFn tid v) (fun c => rfl) cid ws.countries,
    hc]
  exact getAssoc_setAssoc_self tid v c.tensions

theorem getTension_setTension_of_ne {ws : WState} {cid cid' : String}
    (hne : cid' ≠ cid) (tid tid' : String) (v : ℚ) :
    getTension (setTension ws cid tid v) cid' tid' = getTension ws cid' tid' := by
  show (match List.find? (fun c => c.id == cid')
      (updateFirstCountry cid (setTensionFn tid v) ws.countries) with
    | some c => getAssoc tid' c.tensions
    | none => 0) = getTension ws cid' tid'
  rw [@find?_updateFirstCountry_ne (setTensionFn tid v) (fun c => rfl) cid cid' hne
    ws.countries]
  rfl

/-- Reduction of `applyTensionChanges` on a single-entry change map for
a present actor. -/
theorem applyTensionChanges_singleton {ws : WState} {a : String}
    (ha : hasCountry ws a = true) (t : String) (d : ℚ) :
    applyTensionChanges ws [(a, [(t, d)])] = applyTensionDelta ws a t d := by
  simp [applyTensionChanges, ha]

/-- C5: a tension delta `d` applied from a present actor to a distinct
present target moves the actor-to-target tension by `d` and the
target-to-actor tension by exactly `0.7 * d` (both pre-clamp, clamped to
`[-100, 100]`), and both results lie in `[-100, 100]`. -/
theorem applyTensionChanges_reciprocal (ws : WState) (a t : String) (d : ℚ)
    (hne : a ≠ t) (ha : hasCountry ws a = true) (ht : hasCountry ws t = true) :
    getTension (applyTensionChanges ws [(a, [(t, d)])]) a t
      = clampValue (getTension ws a t + d) (-100) 100
    ∧ getTension (applyTensionChanges ws [(a, [(t, d)])]) t a
      = clampValue (getTension ws t a + (7/10) * d) (-100) 100
    ∧ (-100 ≤ getTension (applyTensionChanges ws [(a, [(t, d)])]) a t
      ∧ getTension (applyTensionChanges ws [(a, [(t, d)])]) a t ≤ 100)
    ∧ (-100 ≤ getTension (applyTensionChanges ws [(a, [(t, d)])]) t a
      ∧ getTension (applyTensionChanges ws [(a, [(t, d)])]) t a ≤ 100) := by
  rw [applyTensionChanges_singleton ha]
  have hws1 : hasCountry
      (setTension ws a t (clampValue (getTension ws a t + d) (-100) 100)) t = true := by
    rw [hasCountry_setTension]
    exact ht
  have hred : applyTensionDelta ws a t d =
      setTension (setTension ws a t (clampValue (getTension ws a t + d) (-100) 100)) t a
        (clampValue
          (getTension (setTension ws a t (clampValue (getTension ws a t + d) (-100) 100)) t a
            + (7/10) * d) (-100) 100) := by
    unfold applyTensionDelta
    rw [if_pos hws1]
  rw [hred]
  have h1 : getTension
      (setTension (setTension ws a t (clampValue (getTension ws a t + d) (-100) 100)) t a
        (clampValue
          (getTension (setTension ws a t (clampValue (getTension ws a t + d) (-100) 100)) t a
            + (7/10) * d) (-100) 100)) a t
      = clampValue (getTension ws a t + d) (-100) 100 := by
    rw [getTension_setTension_of_ne hne, getTension_setTension_self _ _ ha]
  have h2 : getTension
      (setTension (setTension ws a t (clampValue (getTension ws a t + d) (-100) 100)) t a
        (clampValue
          (getTension (setTension ws a t (clampValue (getTension ws a t + d) (-100) 100)) t a
            + (7/10) * d) (-100) 100)) t a
      = clampValue (getTension ws t a + (7/10) * d) (-100) 100 := by
    rw [getTension_setTension_self _ _ hws1,
      getTension_setTension_of_ne (Ne.symm hne)]
  refine ⟨h1, h2, ?_, ?_⟩
  · rw [h1]
    exact ⟨le_clampValue _ _ _, clampValue_le _ (by norm_num)⟩
  · rw [h2]
    exact ⟨le_clampValue _ _ _, clampValue_le _ (by norm_num)⟩

/-- Witness for C5 on a concrete two-nation state. -/
theorem applyTensionChanges_reciprocal_witness :
    getTension (applyTensionChanges wsAllied [("alpha", [("beta", 10)])]) "beta" "alpha"
      = clampValue (getTension wsAllied "beta" "alpha" + (7/10) * 10) (-100) 100 :=
  (applyTensionChanges_reciprocal wsAllied "alpha" "beta" 10 (by decide)
    (by simp [hasCountry, wsAllied, mkCountry])
    (by simp [hasCountry, wsAllied, mkCountry])).2.1

/-- C10: a self-tension entry (target id equal to actor id) updates the
same tension cell twice in one step: first by the full delta and then by
the 70% reciprocal on top of the already-updated (clamped) value; when
the first clamp does not bind, the net pre-clamp change is `1.7 * d`. -/
theorem applyTensionChanges_self_tension (ws : WState) (a : String) (d : ℚ)
    (ha : hasCountry ws a = true) :
    getTension (applyTensionChanges ws [(a, [(a, d)])]) a a
      = clampValue (clampValue (getTension ws a a + d) (-100) 100 + (7/10) * d) (-100) 100
    ∧ (-100 ≤ getTension ws a a + d → getTension ws a a + d ≤ 100 →
        getTension (applyTensionChanges ws [(a, [(a, d)])]) a a
          = clampValue (getTension ws a a + (17/10) * d) (-100) 100) := by
  rw [applyTensionChanges_singleton ha]
  have hws1 : hasCountry
      (setTension ws a a (clampValue (getTension ws a a + d) (-100) 100)) a = true := by
    rw [hasCountry_setTension]
    exact ha
  have hred : applyTensionDelta ws a a d =
      setTension (setTension ws a a (clampValue (getTension ws a a + d) (-100) 100)) a a
        (clampValue
          (getTension (setTension ws a a (clampValue (getTension ws a a + d) (-100) 100)) a a
            + (7/10) * d) (-100) 100) := by
    unfold applyTensionDelta
    rw [if_pos hws1]
  have hmain : getTension (applyTensionDelta ws a a d) a a
      = clampValue (clampValue (getTension ws a a + d) (-100) 100 + (7/10) * d)
          (-100) 100 := by
    rw [hred, getTension_setTension_self _ _ hws1, getTension_setTension_self _ _ ha]
  refine ⟨hmain, fun hlo hhi => ?_⟩
  rw [hmain, clampValue_of_mem hlo hhi]
  have harith : getTension ws a a + d + (7/10) * d
      = getTension ws a a + (17/10) * d := by ring
  rw [harith]

/-- Witness for C10 on a concrete state with zero prior self-tension. -/
theorem applyTensionChanges_self_tension_witness :
    getTension (applyTensionChanges wsAllied [("alpha", [("alpha", 10)])]) "alpha" "alpha"
      = clampValue (getTension wsAllied "alpha" "alpha" + (17/10) * 10) (-100) 100 :=
  (applyTensionChanges_self_tension wsAllied "alpha" 10
    (by simp [hasCountry, wsAllied, mkCountry])).2
    (by norm_num [getTension, wsAllied, mkCountry, getAssoc, List.find?])
    (by norm_num [getTension, wsAllied, mkCountry, getAssoc, List.find?])

/-- C6: the termination conditions are tried in a fixed order with
TIME_LIMIT first: a state satisfying both the TIME_LIMIT and the
TOTAL_COLLAPSE conditions terminates with reason TIME_LIMIT. -/
theorem shouldTerminate_time_limit_priority (ws : WState) (maxYears : Int)
    (hy : timeLimitCond ws maxYears) (hc : totalCollapseCond ws) :
    (shouldTerminate ws maxYears).terminate = true ∧
    (shouldTerminate ws maxYears).reason = some "TIME_LIMIT" := by
  unfold timeLimitCond at hy
  unfold shouldTerminate
  rw [if_pos hy]
  exact ⟨rfl, rfl⟩

/-- Witness for C6 on a state at the year limit with every nation
collapsed. -/
theorem shouldTerminate_time_limit_priority_witness :
    (shouldTerminate wsCollapsed 1000).terminate = true ∧
    (shouldTerminate wsCollapsed 1000).reason = some "TIME_LIMIT" :=
  shouldTerminate_time_limit_priority wsCollapsed 1000
    (by norm_num [timeLimitCond, wsCollapsed])
    (by norm_num [totalCollapseCond, wsCollapsed, mkCountry])

/-- C9: `addEvent` and `addCountryHistory` are append-then-truncate:
the new event log is the stamped append with exactly the oldest overflow
dropped, its length never exceeds 100; the history of the touched
country is the append with exactly the oldest overflow dropped, and the
10-entry bound is preserved for every country. -/
theorem addEvent_addCountryHistory_truncate :
    (∀ (ws : WState) (e : GEvent), (addEvent ws e).globalEvents
        = (ws.globalEvents ++ [GEvent.mk e.type e.stabilityIndex ws.tick ws.year]).drop
            (ws.globalEvents.length + 1 - 100))
    ∧ (∀ (ws : WState) (e : GEvent), (addEvent ws e).globalEvents.length ≤ 100)
    ∧ (∀ (ws : WState) (cid entry : String) (c : Country),
        (addCountryHistory ws cid entry).countries.find? (fun x => x.id == cid) = some c →
        ∃ c₀, ws.countries.find? (fun x => x.id == cid) = some c₀ ∧
          c.history = (c₀.history ++ [entry]).drop (c₀.history.length + 1 - 10))
    ∧ (∀ (ws : WState) (cid entry : String),
        (∀ c ∈ ws.countries, c.history.length ≤ 10) →
        ∀ c ∈ (addCountryHistory ws cid entry).countries, c.history.length ≤ 10) := by
  have h1 : ∀ (ws : WState) (e : GEvent), (addEvent ws e).globalEvents
      = (ws.globalEvents ++ [GEvent.mk e.type e.stabilityIndex ws.tick ws.year]).drop
          (ws.globalEvents.length + 1 - 100) := by
    intro ws e
    simp only [addEvent, List.length_append, List.length_singleton]
    by_cases h : 100 < ws.globalEvents.length + 1
    · rw [if_pos h]
    · rw [if_neg h]
      have hz : ws.globalEvents.length + 1 - 100 = 0 := by omega
      rw [hz, List.drop_zero]
  refine ⟨h1, ?_, ?_, ?_⟩
  · intro ws e
    rw [h1 ws e, List.length_drop]
    simp only [List.length_append, List.length_singleton]
    omega
  · intro ws cid entry c hc
    have hre : (addCountryHistory ws cid entry).countries
        = updateFirstCountry cid (pushHistoryFn entry) ws.countries := rfl
    rw [hre,
      @find?_updateFirstCountry_self (pushHistoryFn entry) (fun x => rfl) cid ws.countries]
      at hc
    cases hfind : ws.countries.find? (fun x => x.id == cid) with
    | none => rw [hfind] at hc; simp at hc
    | some c₀ =>
      rw [hfind, Option.map_some'] at hc
      have hcc : pushHistoryFn entry c₀ = c := Option.some.inj hc
      refine ⟨c₀, rfl, ?_⟩
      rw [← hcc]
      show (pushHistoryFn entry c₀).history
          = (c₀.history ++ [entry]).drop (c₀.history.length + 1 - 10)
      simp only [pushHistoryFn, List.length_append, List.length_singleton]
      by_cases h10 : 10 < c₀.history.length + 1
      · rw [if_pos h10]
      · rw [if_neg h10]
        have hz : c₀.history.length + 1 - 10 = 0 := by omega
        rw [hz, List.drop_zero]
  · intro ws cid entry h
    have hf : ∀ c : Country, c.history.length ≤ 10 →
        (pushHistoryFn entry c).history.length ≤ 10 := by
      intro c _
      simp only [pushHistoryFn]
      by_cases h10 : 10 < (c.history ++ [entry]).length
      · rw [if_pos h10]
        simp only [List.length_drop, List.length_append, List.length_singleton]
        omega
      · rw [if_neg h10]
        simp only [List.length_append, List.length_singleton] at h10 ⊢
        omega
    exact fun c hc =>
      @updateFirstCountry_forall (fun c => c.history.length ≤ 10) cid (pushHistoryFn entry)
        hf ws.countries h c hc

/-- Witness for C9's conditional part on a concrete state. -/
theorem addEvent_addCountryHistory_truncate_witness :
    (pushHistoryFn "war began" (mkCountry "alpha" 50 50)).history.length ≤ 10 :=
  addEvent_addCountryHistory_truncate.2.2.2 wsHealthy "alpha" "war began"
    (by simp [wsHealthy, mkCountry]) _
    (by simp [addCountryHistory, wsHealthy, updateFirstCountry, mkCountry])

/-! Stability of the action sort. -/

theorem filter_classK_orderedInsert (k : ℕ) (a : Decision) :
    ∀ l : List Decision,
      (l.orderedInsert decisionOrder a).filter (classK k)
        = if priorityOf a.action = k then a :: l.filter (classK k)
          else l.filter (classK k)
  | [] => by
    by_cases h : priorityOf a.action = k
    · simp [List.orderedInsert, classK, h, List.filter]
    · have hb : (priorityOf a.action == k) = false := by simp [h]
      simp [List.orderedInsert, classK, hb, List.filter, h]
  | b :: l => by
    by_cases hab : decisionOrder a b
    · simp only [List.orderedInsert, if_pos hab]
      by_cases hk : priorityOf a.action = k <;>
        by_cases hbk : priorityOf b.action = k <;>
          simp [List.filter_cons, classK, beq_iff_eq, hk, hbk]
    · simp only [List.orderedInsert, if_neg hab]
      by_cases hk : priorityOf a.action = k
      · by_cases hbk : priorityOf b.action = k
        · exfalso
          unfold decisionOrder at hab
          omega
        · simp [List.filter_cons, classK, beq_iff_eq, hk, hbk,
            filter_classK_orderedInsert k a l]
      · by_cases hbk : priorityOf b.action = k <;>
          simp [List.filter_cons, classK, beq_iff_eq, hk, hbk,
            filter_classK_orderedInsert k a l]

theorem filter_classK_insertionSort (k : ℕ) :
    ∀ ds : List Decision,
      (ds.insertionSort decisionOrder).filter (classK k) = ds.filter (classK k)
  | [] => rfl
  | d :: ds => by
    simp only [List.insertionSort]
    rw [filter_classK_orderedInsert k d (ds.insertionSort decisionOrder)]
    by_cases hk : priorityOf d.action = k
    · rw [if_pos hk, filter_classK_insertionSort k ds]
      simp [List.filter_cons, classK, beq_iff_eq, hk]
    · rw [if_neg hk, filter_classK_insertionSort k ds]
      simp [List.filter_cons, classK, beq_iff_eq, hk]

/-- C7: `prioritizeActions` stably sorts by category rank: the output is
sorted by rank, is a permutation of the input, every rank class keeps
its original relative order (stability), and the submission order
[INTERNAL, MILITARY, DIPLOMACY] comes out [MILITARY, DIPLOMACY,
INTERNAL]. -/
theorem prioritizeActions_stable_sort :
    (∀ ds : List Decision, List.Sorted decisionOrder (prioritizeActions ds))
    ∧ (∀ ds : List Decision, (prioritizeActions ds).Perm ds)
    ∧ (∀ (ds : List Decision) (k : ℕ),
        (prioritizeActions ds).filter (classK k) = ds.filter (classK k))
    ∧ prioritizeActions [dInternal, dMilitary, dDiplomacy]
        = [dMilitary, dDiplomacy, dInternal] := by
  refine ⟨?_, ?_, ?_, ?_⟩
  · intro ds
    exact List.sorted_insertionSort decisionOrder ds
  · intro ds
    exact List.perm_insertionSort decisionOrder ds
  · intro ds k
    exact filter_classK_insertionSort k ds
  · decide

/-! Effects of `updateAlliances` on the two countries involved. -/

theorem addAlly_id (c : Country) (aid : String) : (addAlly c aid).id = c.id := by
  unfold addAlly
  split_ifs <;> rfl

theorem mem_addAlly (c : Country) (aid : String) : aid ∈ (addAlly c aid).alliances := by
  unfold addAlly
  split_ifs with h
  · exact h
  · simp

theorem not_mem_removeAlly (c : Country) (aid : String) :
    aid ∉ (removeAlly c aid).alliances := by
  unfold removeAlly
  simp

theorem updateAlliances_break_countries (ws : WState) (c1 c2 : String)
    (h1 : hasCountry ws c1 = true) (h2 : hasCountry ws c2 = true) :
    (updateAlliances ws c1 c2 "BREAK").countries
      = updateFirstCountry c2 (fun x => removeAlly x c1)
          (updateFirstCountry c1 (fun x => removeAlly x c2) ws.countries) := by
  unfold updateAlliances
  rw [if_pos ⟨h1, h2⟩, if_neg (by decide : ¬("BREAK" = "FORM")), if_pos rfl]

theorem updateAlliances_form_countries (ws : WState) (c1 c2 : String)
    (h1 : hasCountry ws c1 = true) (h2 : hasCountry ws c2 = true) :
    (updateAlliances ws c1 c2 "FORM").countries
      = updateFirstCountry c2 (fun x => addAlly x c1)
          (updateFirstCountry c1 (fun x => addAlly x c2) ws.countries) := by
  unfold updateAlliances
  rw [if_pos ⟨h1, h2⟩, if_pos rfl]

/-- C8: the alliance special-action asymmetry: `form_alliance` mutates
the symmetric alliance relation only when the resolution succeeded
(a failed resolution leaves the state untouched), while
`break_alliance` always calls the symmetric removal, regardless of the
success flag; `BREAK` removes the partner from both countries' lists
and a successful `FORM` adds it to both. -/
theorem handleSpecialActions_alliance_asymmetry :
    (∀ (ws : WState) (d : Decision) (res : Resolution),
      d.specificAction = "form_alliance" → res.success = false →
      handleSpecialActions ws d res = ws)
    ∧ (∀ (ws : WState) (d : Decision) (res : Resolution) (t : String),
      d.specificAction = "form_alliance" → res.success = true → d.target = some t →
      handleSpecialActions ws d res = updateAlliances ws d.actorId t "FORM")
    ∧ (∀ (ws : WState) (d : Decision) (res : Resolution) (t : String),
      d.specificAction = "break_alliance" → d.target = some t →
      handleSpecialActions ws d res = updateAlliances ws d.actorId t "BREAK")
    ∧ (∀ (ws : WState) (c1 c2 : String) (c : Country),
      hasCountry ws c1 = true → hasCountry ws c2 = true →
      (((updateAlliances ws c1 c2 "BREAK").countries.find? (fun x => x.id == c1) = some c →
          c2 ∉ c.alliances)
        ∧ ((updateAlliances ws c1 c2 "BREAK").countries.find? (fun x => x.id == c2) = some c →
          c1 ∉ c.alliances)))
    ∧ (∀ (ws : WState) (c1 c2 : String) (c : Country),
      hasCountry ws c1 = true → hasCountry ws c2 = true →
      (((updateAlliances ws c1 c2 "FORM").countries.find? (fun x => x.id == c1) = some c →
          c2 ∈ c.alliances)
        ∧ ((updateAlliances ws c1 c2 "FORM").countries.find? (fun x => x.id == c2) = some c →
          c1 ∈ c.alliances))) := by
  refine ⟨?_, ?_, ?_, ?_, ?_⟩
  · intro ws d res hsa hsucc
    have hno : ¬(d.specificAction = "form_alliance" ∧ res.success = true) := by
      intro hh
      rw [hsucc] at hh
      exact absurd hh.2 (by simp)
    have hnb : ¬(d.specificAction = "break_alliance") := by
      rw [hsa]
      decide
    unfold handleSpecialActions
    rw [if_neg hno, if_neg hnb]
  · intro ws d res t hsa hsucc ht
    unfold handleSpecialActions
    rw [if_pos ⟨hsa, hsucc⟩, ht]
  · intro ws d res t hsa ht
    have hno : ¬(d.specificAction = "form_alliance" ∧ res.success = true) := by
      intro hh
      exact absurd (hsa.symm.trans hh.1) (by decide)
    unfold handleSpecialActions
    rw [if_neg hno, if_pos hsa, ht]
  · intro ws c1 c2 c h1 h2
    rw [updateAlliances_break_countries ws c1 c2 h1 h2]
    by_cases hcc : c1 = c2
    · subst hcc
      rw [@find?_updateFirstCountry_self (fun x => removeAlly x c1) (fun x => rfl) c1 _,
        @find?_updateFirstCountry_self (fun x => removeAlly x c1) (fun x => rfl) c1
          ws.countries]
      constructor <;>
        · intro hc
          cases hfind : ws.countries.find? (fun x => x.id == c1) with
          | none => rw [hfind] at hc; simp at hc
          | some c₀ =>
            rw [hfind] at hc
            simp only [Option.map_some', Option.some.injEq] at hc
            rw [← hc]
            exact not_mem_removeAlly _ _
    · constructor
      · intro hc
        rw [@find?_updateFirstCountry_ne (fun x => removeAlly x c1) (fun x => rfl) c2 c1
            hcc _,
          @find?_updateFirstCountry_self (fun x => removeAlly x c2) (fun x => rfl) c1
            ws.countries] at hc
        cases hfind : ws.countries.find? (fun x => x.id == c1) with
        | none => rw [hfind] at hc; simp at hc
        | some c₀ =>
          rw [hfind] at hc
          simp only [Option.map_some', Option.some.injEq] at hc
          rw [← hc]
          exact not_mem_removeAlly _ _
      · intro hc
        rw [@find?_updateFirstCountry_self (fun x => removeAlly x c1) (fun x => rfl) c2 _,
          @find?_updateFirstCountry_ne (fun x => removeAlly x c2) (fun x => rfl) c1 c2
            (fun h => hcc h.symm) ws.countries] at hc
        cases hfind : ws.countries.find? (fun x => x.id == c2) with
        | none => rw [hfind] at hc; simp at hc
        | some c₀ =>
          rw [hfind] at hc
          simp only [Option.map_some', Option.some.injEq] at hc
          rw [← hc]
          exact not_mem_removeAlly _ _
  · intro ws c1 c2 c h1 h2
    rw [updateAlliances_form_countries ws c1 c2 h1 h2]
    by_cases hcc : c1 = c2
    · subst hcc
      rw [@find?_updateFirstCountry_self (fun x => addAlly x c1) (fun x => addAlly_id x c1)
          c1 _,
        @find?_updateFirstCountry_self (fun x => addAlly x c1) (fun x => addAlly_id x c1)
          c1 ws.countries]
      constructor <;>
        · intro hc
          cases hfind : ws.countries.find? (fun x => x.id == c1) with
          | none => rw [hfind] at hc; simp at hc
          | some c₀ =>
            rw [hfind] at hc
            simp only [Option.map_some', Option.some.injEq] at hc
            rw [← hc]
            exact mem_addAlly _ _
    · constructor
      · intro hc
        rw [@find?_updateFirstCountry_ne (fun x => addAlly x c1) (fun x => addAlly_id x c1)
            c2 c1 hcc _,
          @find?_updateFirstCountry_self (fun x => addAlly x c2) (fun x => addAlly_id x c2)
            c1 ws.countries] at hc
        cases hfind : ws.countries.find? (fun x => x.id == c1) with
        | none => rw [hfind] at hc; simp at hc
        | some c₀ =>
          rw [hfind] at hc
          simp only [Option.map_some', Option.some.injEq] at hc
          rw [← hc]
          exact mem_addAlly _ _
      · intro hc
        rw [@find?_updateFirstCountry_self (fun x => addAlly x c1) (fun x => addAlly_id x c1)
            c2 _,
          @find?_updateFirstCountry_ne (fun x => addAlly x c2) (fun x => addAlly_id x c2)
            c1 c2 (fun h => hcc h.symm) ws.countries] at hc
        cases hfind : ws.countries.find? (fun x => x.id == c2) with
        | none => rw [hfind] at hc; simp at hc
        | some c₀ =>
          rw [hfind] at hc
          simp only [Option.map_some', Option.some.injEq] at hc
          rw [← hc]
          exact mem_addAlly _ _

/-- Witness for C8: a failed form_alliance resolution leaves a concrete
allied state untouched. -/
theorem handleSpecialActions_alliance_asymmetry_witness :
    handleSpecialActions wsAllied
      ⟨"a1", "alpha", "DIPLOMACY", "form_alliance", some "beta"⟩ ⟨false⟩ = wsAllied :=
  handleSpecialActions_alliance_asymmetry.1 wsAllied
    ⟨"a1", "alpha", "DIPLOMACY", "form_alliance", some "beta"⟩ ⟨false⟩ rfl rfl

/-- C1 counterexample: in `wsPO` the most recent 20 tick-summary entries
of the event log all report stability index 95 (the spec's condition
holds), yet `shouldTerminate` does not terminate: the war event among
the last 20 `globalEvents` entries leaves only 19 tick summaries in the
window the code actually inspects. -/
theorem shouldTerminate_perfectOrder_counterexample :
    specPerfectOrderCond wsPO ∧ (shouldTerminate wsPO 1000).terminate = false := by
  have hts : (tsEvent95.type == "TICK_SUMMARY") = true := rfl
  have hwar : (warEvent.type == "TICK_SUMMARY") = false := rfl
  have hsv : stabVal tsEvent95 = 95 := rfl
  constructor
  · norm_num [specPerfectOrderCond, wsPO, List.filter_cons, hts, hwar, hsv]
  · norm_num [shouldTerminate, wsPO, List.filter_cons, hts, hwar, hsv, mkCountry]

/-- A value returned (rather than thrown) by the retry loop never
carries a truthy `error` field: the loop returns only when
`!result.error` holds, otherwise it rethrows or retries. Hence the
fallback branch of `collectDecisions` is unreachable. -/
theorem callWithRetryGo_ok_no_error (call : ℕ → CallResult) :
    ∀ (i fuel : ℕ) (r : CallResult), callWithRetryGo call i fuel = Except.ok r →
      truthyErr r = false
  | i, 0, r => by simp [callWithRetryGo]
  | i, fuel + 1, r => by
    simp only [callWithRetryGo]
    split_ifs with h1 h2
    · intro hr
      injection hr with hr
      rw [← hr]
      exact h1
    · intro hr
      simp at hr
    · exact callWithRetryGo_ok_no_error call (i + 1) fuel r

/-- C2 at a concrete failing input: one healthy leader faction whose
external call fails with a non-retryable error is dropped from the
collected decisions; no fallback decision is substituted, so the set of
factions acting this tick shrinks. -/
theorem collectDecisions_drops_failed_faction :
    collectDecisions [leaderAlpha] wsHealthy callAlwaysFails = [] := by
  have h503 : ¬("503 Service Unavailable" = "") := by decide
  norm_num [collectDecisions, leaderAlpha, wsHealthy, mkCountry, List.find?,
    callWithRetry, callWithRetryGo, callAlwaysFails, truthyErr, h503]

/-- C1 amended: `shouldTerminate` reports PERFECT_ORDER exactly when
none of TIME_LIMIT, HEGEMONY and TOTAL_COLLAPSE fires and the
tick-summary entries among the most recent 20 `globalEvents` entries
number at least 20 (so all of the last 20 are tick summaries) and each
reports a stability index of at least 95; in particular with fewer than
20 such entries in that window it can never fire. -/
theorem shouldTerminate_perfectOrder_iff (ws : WState) (maxYears : Int) :
    (shouldTerminate ws maxYears).reason = some "PERFECT_ORDER" ↔
      (¬ timeLimitCond ws maxYears ∧ ¬ hegemonyCond ws ∧ ¬ totalCollapseCond ws ∧
        codePerfectOrderCond ws) := by
  have hcollapse : (ws.countries.filter (fun c => decide (20 < c.stability))).length = 0
      ↔ totalCollapseCond ws := by
    rw [List.length_eq_zero, List.filter_eq_nil]
    unfold totalCollapseCond
    constructor
    · intro h c hc
      have hcd := h c hc
      simp only [decide_eq_true_eq] at hcd
      exact not_lt.mp hcd
    · intro h c hc
      simp only [decide_eq_true_eq]
      exact not_lt.mpr (h c hc)
  have hperfect : (20 ≤ (((ws.globalEvents.drop (ws.globalEvents.length - 20)).filter
        (fun e => e.type == "TICK_SUMMARY")).map stabVal).length
      ∧ (((ws.globalEvents.drop (ws.globalEvents.length - 20)).filter
        (fun e => e.type == "TICK_SUMMARY")).map stabVal).all
          (fun s => decide (95 ≤ s)) = true)
      ↔ codePerfectOrderCond ws := by
    unfold codePerfectOrderCond
    rw [List.length_map, List.all_eq_true]
    simp only [List.mem_map, decide_eq_true_eq]
    constructor
    · intro h
      refine ⟨h.1, fun e he => ?_⟩
      exact h.2 (stabVal e) ⟨e, he, rfl⟩
    · intro h
      refine ⟨h.1, fun s hs => ?_⟩
      obtain ⟨e, he, rfl⟩ := hs
      exact h.2 e he
  simp only [shouldTerminate]
  by_cases h1 : ws.year ≥ maxYears
  · rw [if_pos h1]
    have ht : timeLimitCond ws maxYears := h1
    simp [ht]
  · rw [if_neg h1]
    have hnt : ¬ timeLimitCond ws maxYears := h1
    by_cases h2 : (ws.countries.filter
          (fun c => decide (50 < c.power ∧ 30 < c.stability))).length = 1
        ∧ 1 < ws.countries.length
    · rw [if_pos h2]
      have hh : hegemonyCond ws := h2
      simp [hh]
    · rw [if_neg h2]
      have hnh : ¬ hegemonyCond ws := h2
      by_cases h3 : (ws.countries.filter (fun c => decide (20 < c.stability))).length = 0
      · rw [if_pos h3]
        have htc : totalCollapseCond ws := hcollapse.mp h3
        simp [htc]
      · rw [if_neg h3]
        have hntc : ¬ totalCollapseCond ws := fun htc => h3 (hcollapse.mpr htc)
        by_cases h4 : 20 ≤ (((ws.globalEvents.drop (ws.globalEvents.length - 20)).filter
              (fun e => e.type == "TICK_SUMMARY")).map stabVal).length
            ∧ (((ws.globalEvents.drop (ws.globalEvents.length - 20)).filter
              (fun e => e.type == "TICK_SUMMARY")).map stabVal).all
                (fun s => decide (95 ≤ s)) = true
        · rw [if_pos h4]
          have hcp : codePerfectOrderCond ws := hperfect.mp h4
          simp [hnt, hnh, hntc, hcp]
        · rw [if_neg h4]
          have hncp : ¬ codePerfectOrderCond ws := fun hc => h4 (hperfect.mpr hc)
          simp [hncp]

/-- Witness for the amended C1 characterisation: on a state whose last
20 global events are all tick summaries at stability index 95 and on
which no earlier condition fires, `shouldTerminate` reports
PERFECT_ORDER. -/
theorem shouldTerminate_perfectOrder_iff_witness :
    (shouldTerminate wsPO20 1000).reason = some "PERFECT_ORDER" :=
  (shouldTerminate_perfectOrder_iff wsPO20 1000).mpr
    ⟨by norm_num [timeLimitCond, wsPO20],
     by norm_num [hegemonyCond, wsPO20],
     by norm_num [totalCollapseCond, wsPO20, mkCountry],
     by norm_num [codePerfectOrderCond, wsPO20, tsEvent95, stabVal, List.filter_cons]⟩

end WorldSim
